import Mathlib

set_option maxRecDepth 40000

/-!
Verification development for the Rembrandt_Map RAG backend
(`backend/services/rag_service.py`, `backend/services/chroma_service.py`,
`backend/routes/documents.py`, `backend/routes/health.py`).

The Python code is shallowly embedded: pure helpers become Lean functions,
the stateful `ChromaService` singleton becomes explicit state passing over a
`ChromaState` record, Python exceptions become `Except` results, and the
external collaborators (the LangChain text splitter and the ChromaDB
nearest-neighbour engine) are passed in as function parameters, exactly as
the code treats them as opaque capabilities.  Machine reals (cosine
distances and scores) are modelled as rationals.
-/

/-! ## MD5 (model of Python `hashlib.md5(...).hexdigest()`, RFC 1321)

`_chunk_id` in `rag_service.py` hashes the UTF-8 bytes of the joined key with
MD5 and returns the lowercase hex digest.  Words are 32-bit, modelled as `Nat`
reduced modulo 2^32. -/

/-- Reduce a natural number to a 32-bit word. -/
def w32 (n : Nat) : Nat := n % 4294967296

/-- Rotate a 32-bit word left by `s` bits. -/
def rotl (x s : Nat) : Nat := ((x <<< s) % 4294967296) ||| (x >>> (32 - s))

/-- The 64 MD5 sine-derived constants (RFC 1321, floor(abs(sin(i+1)) * 2^32)). -/
def md5K : List Nat :=
  [0xd76aa478, 0xe8c7b756, 0x242070db, 0xc1bdceee,
   0xf57c0faf, 0x4787c62a, 0xa8304613, 0xfd469501,
   0x698098d8, 0x8b44f7af, 0xffff5bb1, 0x895cd7be,
   0x6b901122, 0xfd987193, 0xa679438e, 0x49b40821,
   0xf61e2562, 0xc040b340, 0x265e5a51, 0xe9b6c7aa,
   0xd62f105d, 0x02441453, 0xd8a1e681, 0xe7d3fbc8,
   0x21e1cde6, 0xc33707d6, 0xf4d50d87, 0x455a14ed,
   0xa9e3e905, 0xfcefa3f8, 0x676f02d9, 0x8d2a4c8a,
   0xfffa3942, 0x8771f681, 0x6d9d6122, 0xfde5380c,
   0xa4beea44, 0x4bdecfa9, 0xf6bb4b60, 0xbebfbc70,
   0x289b7ec6, 0xeaa127fa, 0xd4ef3085, 0x04881d05,
   0xd9d4d039, 0xe6db99e5, 0x1fa27cf8, 0xc4ac5665,
   0xf4292244, 0x432aff97, 0xab9423a7, 0xfc93a039,
   0x655b59c3, 0x8f0ccc92, 0xffeff47d, 0x85845dd1,
   0x6fa87e4f, 0xfe2ce6e0, 0xa3014314, 0x4e0811a1,
   0xf7537e82, 0xbd3af235, 0x2ad7d2bb, 0xeb86d391]

/-- The 64 per-round left-rotation amounts of MD5. -/
def md5S : List Nat :=
  [7, 12, 17, 22, 7, 12, 17, 22, 7, 12, 17, 22, 7, 12, 17, 22,
   5, 9, 14, 20, 5, 9, 14, 20, 5, 9, 14, 20, 5, 9, 14, 20,
   4, 11, 16, 23, 4, 11, 16, 23, 4, 11, 16, 23, 4, 11, 16, 23,
   6, 10, 15, 21, 6, 10, 15, 21, 6, 10, 15, 21, 6, 10, 15, 21]

/-- The MD5 round mixing function for step `i` (F, G, H, I by quarter). -/
def md5F (i b c d : Nat) : Nat :=
  if i < 16 then (b &&& c) ||| ((b ^^^ 4294967295) &&& d)
  else if i < 32 then (d &&& b) ||| ((d ^^^ 4294967295) &&& c)
  else if i < 48 then b ^^^ c ^^^ d
  else c ^^^ (b ||| (d ^^^ 4294967295))

/-- The MD5 message-word index used by step `i`. -/
def md5G (i : Nat) : Nat :=
  if i < 16 then i
  else if i < 32 then (5 * i + 1) % 16
  else if i < 48 then (3 * i + 5) % 16
  else (7 * i) % 16

/-- Running state of the MD5 compression function. -/
structure MD5St where
  a : Nat
  b : Nat
  c : Nat
  d : Nat
  deriving Repr, DecidableEq

/-- Little-endian decomposition of `n` into `k` bytes. -/
def leBytes : Nat → Nat → List Nat
  | 0, _ => []
  | k + 1, n => n % 256 :: leBytes k (n / 256)

/-- Word `j` of a 64-byte block, assembled little-endian. -/
def md5Word (block : List Nat) (j : Nat) : Nat :=
  block.getD (4 * j) 0 + 256 * block.getD (4 * j + 1) 0 +
    65536 * block.getD (4 * j + 2) 0 + 16777216 * block.getD (4 * j + 3) 0

/-- One of the 64 steps of the MD5 compression function. -/
def md5Step (block : List Nat) (st : MD5St) (i : Nat) : MD5St :=
  let f := md5F i st.b st.c st.d
  let tmp := w32 (st.a + f + md5K.getD i 0 + md5Word block (md5G i))
  { a := st.d, b := w32 (st.b + rotl tmp (md5S.getD i 0)), c := st.b, d := st.c }

/-- The MD5 compression function on one 64-byte block. -/
def md5Compress (st : MD5St) (block : List Nat) : MD5St :=
  let r := (List.range 64).foldl (md5Step block) st
  { a := w32 (st.a + r.a), b := w32 (st.b + r.b),
    c := w32 (st.c + r.c), d := w32 (st.d + r.d) }

/-- MD5 padding: append 0x80, zero-fill to 56 mod 64, then the 64-bit
little-endian bit length. -/
def md5Pad (msg : List Nat) : List Nat :=
  msg ++ 128 :: List.replicate ((119 - msg.length % 64) % 64) 0 ++
    leBytes 8 (8 * msg.length)

/-- Fold the compression function over `k` consecutive 64-byte blocks. -/
def md5Blocks : Nat → List Nat → MD5St → MD5St
  | 0, _, st => st
  | k + 1, bytes, st => md5Blocks k (bytes.drop 64) (md5Compress st (bytes.take 64))

/-- Lowercase hex digit for a value below 16. -/
def hexChar (d : Nat) : Char := if d < 10 then Char.ofNat (48 + d) else Char.ofNat (87 + d)

/-- Two lowercase hex digits of a byte. -/
def byteHex (b : Nat) : List Char := [hexChar (b / 16), hexChar (b % 16)]

/-- Hex rendering of a 32-bit word, little-endian byte order (as in hexdigest). -/
def wordHexLE (w : Nat) : List Char :=
  (leBytes 4 w).foldr (fun b acc => byteHex b ++ acc) []

/-- MD5 lowercase hex digest of a byte sequence, as `hashlib.md5(...).hexdigest()`. -/
def md5hex (msg : List Nat) : String :=
  let padded := md5Pad msg
  let st := md5Blocks (padded.length / 64) padded
    { a := 0x67452301, b := 0xefcdab89, c := 0x98badcfe, d := 0x10325476 }
  String.mk (wordHexLE st.a ++ wordHexLE st.b ++ wordHexLE st.c ++ wordHexLE st.d)

/-! ## UTF-8 encoding (model of Python `str.encode("utf-8")`) -/

/-- UTF-8 bytes of a single code point. -/
def utf8Char (n : Nat) : List Nat :=
  if n < 128 then [n]
  else if n < 2048 then [192 + n / 64, 128 + n % 64]
  else if n < 65536 then [224 + n / 4096, 128 + n / 64 % 64, 128 + n % 64]
  else [240 + n / 262144, 128 + n / 4096 % 64, 128 + n / 64 % 64, 128 + n % 64]

/-- UTF-8 bytes of a string. -/
def utf8Encode (s : String) : List Nat :=
  s.data.foldr (fun ch acc => utf8Char ch.toNat ++ acc) []

/-! ## Decimal rendering (model of Python `str(idx)` inside the f-string) -/

/-- Decimal digit character. -/
def digitChar (d : Nat) : Char := Char.ofNat (48 + d)

/-- Fuel-driven decimal digit list, most significant digit first. -/
def pyStrAux : Nat → Nat → List Char
  | 0, _ => []
  | fuel + 1, n =>
    if n < 10 then [digitChar n]
    else pyStrAux fuel (n / 10) ++ [digitChar (n % 10)]

/-- Decimal string of a natural number, as Python `str`. -/
def pyStr (n : Nat) : String := String.mk (pyStrAux (n + 1) n)

/-! ## Chunk identity (`rag_service._chunk_id`) -/

/-- Pre-hash key string of `_chunk_id`: the Python f-string
`f"{doc_id}::{section_id}::{idx}"`. -/
def chunkIdRaw (doc_id section_id : String) (idx : Nat) : String :=
  doc_id ++ "::" ++ section_id ++ "::" ++ pyStr idx

/-- Stable chunk ID: MD5 hex digest of the UTF-8 encoded key
(`rag_service.py`, `_chunk_id`). -/
def _chunk_id (doc_id section_id : String) (idx : Nat) : String :=
  md5hex (utf8Encode (chunkIdRaw doc_id section_id idx))

/-! ## Tag serialization (`prepare_chunks` line with `",".join`, and the
split in `routes/documents.py`) -/

/-- Comma join of a tag list, as Python `",".join(tags)`. -/
def joinTags : List String → String
  | [] => ""
  | [t] => t
  | t :: ts => t ++ "," ++ joinTags ts

/-- Split of a character list on the comma, as Python `str.split(",")`
(no collapsing of adjacent separators; the empty input yields one empty
field). -/
def splitComma : List Char → List (List Char)
  | [] => [[]]
  | ch :: rest =>
    if ch = ',' then [] :: splitComma rest
    else
      match splitComma rest with
      | [] => [[ch]]
      | f :: fs => (ch :: f) :: fs

/-- Tag deserialization in `search_documents`:
`[t for t in r.get("tags", "").split(",") if t]`. -/
def splitTags (s : String) : List String :=
  ((splitComma s.data).map String.mk).filter (fun t => !t.isEmpty)

/-! ## Input records and chunk assembly (`rag_service.prepare_chunks`) -/

/-- A document section as sent by the frontend (`models/schemas.py`,
`DocumentChunk`).  Fields that `prepare_chunks` reads with `.get` defaults
are optional. -/
structure DocumentChunk where
  doc_id : String
  filename : String
  section_id : Option String
  heading : Option String
  speaker : Option String
  content : String
  tags : List String
  deriving Repr, DecidableEq

/-- A flat ChromaDB-ready chunk record assembled by `prepare_chunks`:
`id`, `content`, and the scalar metadata fields. -/
structure Chunk where
  id : String
  content : String
  doc_id : String
  filename : String
  section_id : String
  heading : String
  speaker : String
  tags : String
  deriving Repr, DecidableEq

/-- Python `x or dflt` on an optional string: `None` and the empty string
both fall through to the default. -/
def pyOrStr (x : Option String) (dflt : String) : String :=
  match x with
  | none => dflt
  | some s => if s = "" then dflt else s

/-- Python `enumerate` starting at `i`. -/
def enumerate (i : Nat) : List String → List (Nat × String)
  | [] => []
  | t :: ts => (i, t) :: enumerate (i + 1) ts

/-- One assembled output record of `prepare_chunks` for sub-chunk `text` at
position `idx` of the section `d`. -/
def assembleChunk (d : DocumentChunk) (idx : Nat) (text : String) : Chunk :=
  { id := _chunk_id d.doc_id (pyOrStr d.section_id d.doc_id) idx
    content := text
    doc_id := d.doc_id
    filename := d.filename
    section_id := pyOrStr d.section_id d.doc_id
    heading := pyOrStr d.heading ""
    speaker := d.speaker.getD "unknown"
    tags := joinTags d.tags }

/-- Python `str.strip()`: drop leading and trailing whitespace. -/
def pyStrip (s : String) : String :=
  String.mk (((s.data.dropWhile Char.isWhitespace).reverse.dropWhile
    Char.isWhitespace).reverse)

/-- Shallow embedding of `rag_service.prepare_chunks`.  The LangChain
`RecursiveCharacterTextSplitter.split_text` is an external collaborator and
is passed in as `split_text`; everything else follows the source line by
line: strip the content, skip blank sections, default the section id to the
doc id, and assemble one flat record per sub-chunk. -/
def prepare_chunks (split_text : String → List String)
    (documents : List DocumentChunk) : List Chunk :=
  documents.foldr
    (fun d acc =>
      let content := pyStrip d.content
      if content = "" then acc
      else
        ((enumerate 0 (split_text content)).map
          (fun p => assembleChunk d p.1 p.2)) ++ acc)
    []

/-! ## Vector store adapter (`chroma_service.ChromaService`)

The singleton's two handles `self._client` and `self._collection` become the
flags `clientInit` and `collHandle`; the backing persistent client keeps the
named collection's existence flag and its contents.  Python exceptions
(the `assert self._collection is not None` failures and ChromaDB's error on
deleting a missing collection) become `Except.error` values; every operation
returns its result together with the mutated service state. -/

/-- Faults of the adapter operations. -/
inductive ChromaErr where
  | assertionFailed
  | collectionNotFound
  deriving Repr, DecidableEq

/-- State of the `ChromaService` singleton plus its backing store. -/
structure ChromaState where
  clientInit : Bool
  collHandle : Bool
  collExists : Bool
  entries : List Chunk
  deriving Repr, DecidableEq

/-- A service state before any operation has run (fresh process, fresh
deployment). -/
def freshState : ChromaState :=
  { clientInit := false, collHandle := false, collExists := false, entries := [] }

/-- Embedding of `ChromaService._ensure_ready`: a no-op whenever the client
handle is already set; otherwise open the client and get-or-create the
collection. -/
def ensure_ready (s : ChromaState) : ChromaState :=
  if s.clientInit then s
  else
    { clientInit := true, collHandle := true, collExists := true,
      entries := if s.collExists then s.entries else [] }

/-- ChromaDB upsert of a single record: replace the entry with the same id,
or append when the id is new. -/
def upsertOne (entries : List Chunk) (c : Chunk) : List Chunk :=
  if entries.any (fun e => e.id == c.id) then
    entries.map (fun e => if e.id == c.id then c else e)
  else entries ++ [c]

/-- ChromaDB batch upsert, keyed by chunk id. -/
def upsertMany (entries : List Chunk) (cs : List Chunk) : List Chunk :=
  cs.foldl upsertOne entries

/-- Embedding of `ChromaService.add_chunks`: return immediately on an empty
batch, otherwise ensure readiness, assert the collection handle, and upsert. -/
def add_chunks (chunks : List Chunk) (s : ChromaState) :
    Except ChromaErr Unit × ChromaState :=
  if chunks.isEmpty then (.ok (), s)
  else
    let t := ensure_ready s
    if t.collHandle then (.ok (), { t with entries := upsertMany t.entries chunks })
    else (.error .assertionFailed, t)

/-- Embedding of `ChromaService.count`. -/
def count (s : ChromaState) : Except ChromaErr Nat × ChromaState :=
  let t := ensure_ready s
  if t.collHandle then (.ok t.entries.length, t) else (.error .assertionFailed, t)

/-- A search hit as built in `ChromaService.search`: the document text, the
normalized score, and the stored metadata fields spread back in. -/
structure Hit where
  content : String
  score : ℚ
  doc_id : String
  filename : String
  section_id : String
  heading : String
  speaker : String
  tags : String
  deriving Repr, DecidableEq

/-- Distance-to-similarity normalization of one raw query result
(`score = 1.0 - (dist / 2.0)` in `ChromaService.search`). -/
def normalizeHit (e : Chunk) (dist : ℚ) : Hit :=
  { content := e.content, score := 1 - dist / 2, doc_id := e.doc_id,
    filename := e.filename, section_id := e.section_id, heading := e.heading,
    speaker := e.speaker, tags := e.tags }

/-- Embedding of `ChromaService.search`.  The embedding model and HNSW
index are external: `knn` maps a query, a result budget and the stored
entries to raw `(entry, cosine distance)` pairs.  The code guards the empty
collection, clamps `n_results` to the collection size, and maps the
normalizer over the raw results. -/
def search (knn : String → Nat → List Chunk → List (Chunk × ℚ))
    (query : String) (n_results : Nat) (s : ChromaState) :
    Except ChromaErr (List Hit) × ChromaState :=
  let t := ensure_ready s
  if t.collHandle then
    let cnt := t.entries.length
    if cnt = 0 then (.ok [], t)
    else
      (.ok ((knn query (min n_results cnt) t.entries).map
        (fun p => normalizeHit p.1 p.2)), t)
  else (.error .assertionFailed, t)

/-- Embedding of `ChromaService.clear`: ensure readiness, delete the whole
collection (ChromaDB raises when it does not exist), then drop the
collection handle only — the client handle stays set. -/
def clear (s : ChromaState) : Except ChromaErr Unit × ChromaState :=
  let t := ensure_ready s
  if t.collExists then
    (.ok (), { t with collExists := false, entries := [], collHandle := false })
  else (.error .collectionNotFound, t)

/-- Embedding of the `ChromaService.is_ready` property with an explicit
initialization attempt: the `try` block catches every fault and reports
`false`; on success it reports whether the collection handle is set. -/
def is_readyWith (tryInit : ChromaState → Except ChromaErr ChromaState)
    (s : ChromaState) : Bool × ChromaState :=
  match tryInit s with
  | .error _ => (false, s)
  | .ok t => (t.collHandle, t)

/-- The `is_ready` property with the faultless initializer of the source. -/
def is_ready (s : ChromaState) : Bool × ChromaState :=
  is_readyWith (fun t => .ok (ensure_ready t)) s

/-! ## Route layer (`routes/documents.py`, `routes/health.py`) -/

/-- Route-level failure: the `HTTPException(status_code=500, ...)` wrapper. -/
inductive RouteErr where
  | http500 (cause : ChromaErr)
  deriving Repr, DecidableEq

/-- Response of `POST /docs/index`. -/
structure IndexResponse where
  indexed : Nat
  deriving Repr, DecidableEq

/-- Response record element of `POST /docs/search` (`models/schemas.py`,
`SearchResult`): optional fields surface as `Option`. -/
structure SearchResult where
  doc_id : String
  filename : String
  section_id : Option String
  heading : Option String
  speaker : String
  content : String
  score : ℚ
  tags : List String
  deriving Repr, DecidableEq

/-- Response of `POST /docs/search`. -/
structure SearchResponse where
  results : List SearchResult
  query : String
  deriving Repr, DecidableEq

/-- Response of `DELETE /docs/clear`. -/
structure ClearResponse where
  cleared : Bool
  deriving Repr, DecidableEq

/-- Response of `GET /health`. -/
structure HealthResponse where
  status : String
  version : String
  chroma_ready : Bool
  deriving Repr, DecidableEq

/-- Embedding of the `index_documents` route: prepare the chunks, upsert
them, and answer with the number of sub-chunks written. -/
def index_documents (split_text : String → List String)
    (docs : List DocumentChunk) (s : ChromaState) :
    Except RouteErr IndexResponse × ChromaState :=
  let chunks := prepare_chunks split_text docs
  match add_chunks chunks s with
  | (.ok _, t) => (.ok { indexed := chunks.length }, t)
  | (.error e, t) => (.error (.http500 e), t)

/-- Reshaping of one search hit into the outward `SearchResult`
(`search_documents` in `routes/documents.py`): blank heading surfaces as
`None`, the stored comma-joined tag string is split back into a list. -/
def toSearchResult (h : Hit) : SearchResult :=
  { doc_id := h.doc_id, filename := h.filename,
    section_id := some h.section_id,
    heading := if h.heading = "" then none else some h.heading,
    speaker := h.speaker, content := h.content, score := h.score,
    tags := splitTags h.tags }

/-- Embedding of the `search_documents` route: run the adapter search and
echo the input query back next to the reshaped results. -/
def search_documents (knn : String → Nat → List Chunk → List (Chunk × ℚ))
    (req_query : String) (top_k : Nat) (s : ChromaState) :
    Except RouteErr SearchResponse × ChromaState :=
  match search knn req_query top_k s with
  | (.ok hits, t) => (.ok { results := hits.map toSearchResult, query := req_query }, t)
  | (.error e, t) => (.error (.http500 e), t)

/-- Embedding of the `clear_documents` route. -/
def clear_documents (s : ChromaState) : Except RouteErr ClearResponse × ChromaState :=
  match clear s with
  | (.ok _, t) => (.ok { cleared := true }, t)
  | (.error e, t) => (.error (.http500 e), t)

/-- Embedding of the `health_check` route: always answers with status "ok"
and the probe's boolean — no failure value in its result type. -/
def health_check (tryInit : ChromaState → Except ChromaErr ChromaState)
    (s : ChromaState) : HealthResponse × ChromaState :=
  let r := is_readyWith tryInit s
  ({ status := "ok", version := "0.1.0", chroma_ready := r.1 }, r.2)

/-! ## Operation sequences over the adapter -/

/-- One invocation of a public adapter operation. -/
inductive AdapterOp where
  | add (chunks : List Chunk)
  | searchQ (q : String) (n : Nat)
  | countC
  | clearC
  | ready
  deriving Repr

/-- The service state after one adapter operation (result discarded;
faults leave the state where the raise happened, as in Python). -/
def stepOp (knn : String → Nat → List Chunk → List (Chunk × ℚ))
    (op : AdapterOp) (s : ChromaState) : ChromaState :=
  match op with
  | .add cs => (add_chunks cs s).2
  | .searchQ q n => (search knn q n s).2
  | .countC => (count s).2
  | .clearC => (clear s).2
  | .ready => (is_ready s).2

/-- The service state after a sequence of adapter operations. -/
def runOps (knn : String → Nat → List Chunk → List (Chunk × ℚ))
    (ops : List AdapterOp) (s : ChromaState) : ChromaState :=
  ops.foldl (fun t op => stepOp knn op t) s

/-! ## Concrete sample inputs (used by witness theorems) -/

/-- A trivial splitter instance: one sub-chunk holding the whole text.  Used
only to instantiate the `split_text` parameter at concrete inputs. -/
def oneSplit : String → List String := fun s => [s]

/-- A sample document section, mirroring the repository's test fixtures. -/
def sampleDoc : DocumentChunk :=
  { doc_id := "art_001", filename := "art_concept.md",
    section_id := some "art_001_intro", heading := some "Art direction",
    speaker := some "art_director", content := "dark fantasy style",
    tags := ["art", "concept"] }

/-- A sample document section with three tags and no optional fields. -/
def taggedDoc : DocumentChunk :=
  { doc_id := "d1", filename := "test.md", section_id := some "d1_s1",
    heading := none, speaker := none, content := "enough text",
    tags := ["alpha", "beta", "gamma"] }

/-- A sample document section with an empty tag list. -/
def untaggedDoc : DocumentChunk :=
  { doc_id := "d2", filename := "t2.md", section_id := none,
    heading := some "", speaker := some "prog_director", content := "words",
    tags := [] }

/-- A sample section whose content is whitespace only. -/
def blankDoc : DocumentChunk :=
  { doc_id := "d3", filename := "empty.md", section_id := some "d3_s1",
    heading := some "", speaker := some "art_director", content := "   ",
    tags := [] }

/-- The chunk assembled from `sampleDoc` with the trivial splitter. -/
def sampleChunk : Chunk := assembleChunk sampleDoc 0 "dark fantasy style"

/-- A deterministic stand-in for the nearest-neighbour engine: the first
`n` stored entries, each at cosine distance 1/2. -/
def sampleKnn : String → Nat → List Chunk → List (Chunk × ℚ) :=
  fun _ n es => (es.take n).map (fun e => (e, (1 : ℚ) / 2))

/-- A service state holding exactly one stored chunk. -/
def oneEntryState : ChromaState :=
  { clientInit := true, collHandle := true, collExists := true,
    entries := [sampleChunk] }

/-- An initialization attempt that always faults. -/
def failInit : ChromaState → Except ChromaErr ChromaState :=
  fun _ => .error .assertionFailed

/-! ## Sanity checks of the hash model against RFC 1321 test vectors -/

/-- The MD5 model reproduces the RFC 1321 digest of the empty message. -/
theorem md5hex_nil : md5hex [] = "d41d8cd98f00b204e9800998ecf8427e" := by decide

/-- The MD5 model reproduces the RFC 1321 digest of "abc". -/
theorem md5hex_abc :
    md5hex (utf8Encode "abc") = "900150983cd24fb0d6963f7d28e17f72" := by decide

/-! ## Basic facts about the adapter state -/

/-- After `_ensure_ready`, the client handle is always set. -/
theorem ensure_ready_clientInit (s : ChromaState) :
    (ensure_ready s).clientInit = true := by
  unfold ensure_ready; split <;> simp_all

/-- The early return of `_ensure_ready`: with the client handle set it is a
no-op — in particular it never rebuilds a deleted collection. -/
theorem ensure_ready_of_init (s : ChromaState) (h : s.clientInit = true) :
    ensure_ready s = s := by
  unfold ensure_ready; simp [h]

/-- Sections whose content strips to the empty string contribute nothing. -/
theorem prepare_chunks_blank (split_text : String → List String)
    (docs : List DocumentChunk) (hblank : ∀ d ∈ docs, pyStrip d.content = "") :
    prepare_chunks split_text docs = [] := by
  induction docs with
  | nil => rfl
  | cons d ds ih =>
    have hd : pyStrip d.content = "" := hblank d (List.mem_cons_self d ds)
    have hds : prepare_chunks split_text ds = [] :=
      ih (fun e he => hblank e (List.mem_cons_of_mem d he))
    show (if pyStrip d.content = "" then prepare_chunks split_text ds else _) = []
    rw [if_pos hd, hds]

/-- C7: indexing the empty document list answers `indexed = 0` and leaves
the service state untouched, and a batch made only of sections whose content
is empty after stripping produces zero chunks (silently skipped) and hence
also answers `indexed = 0` without touching the store. -/
theorem c7_empty_input_noop (split_text : String → List String)
    (s : ChromaState) (docs : List DocumentChunk)
    (hblank : ∀ d ∈ docs, pyStrip d.content = "") :
    prepare_chunks split_text [] = [] ∧
    index_documents split_text [] s = (.ok { indexed := 0 }, s) ∧
    prepare_chunks split_text docs = [] ∧
    index_documents split_text docs s = (.ok { indexed := 0 }, s) := by
  have hb : prepare_chunks split_text docs = [] :=
    prepare_chunks_blank split_text docs hblank
  refine ⟨rfl, ?_, hb, ?_⟩
  · simp [index_documents, prepare_chunks, add_chunks]
  · simp [index_documents, hb, add_chunks]

/-- Witness for C7 at a concrete whitespace-only section. -/
theorem c7_empty_input_noop_witness :
    prepare_chunks oneSplit [] = [] ∧
    index_documents oneSplit [] freshState = (.ok { indexed := 0 }, freshState) ∧
    prepare_chunks oneSplit [blankDoc] = [] ∧
    index_documents oneSplit [blankDoc] freshState =
      (.ok { indexed := 0 }, freshState) :=
  c7_empty_input_noop oneSplit freshState [blankDoc] (by decide)

/-- C8: the readiness probe never propagates a fault: whatever the internal
state and whatever fault the initialization attempt raises, `is_ready`
answers the boolean `false`; it answers `true` only when initialization
succeeded with a live collection handle, and the health route always reports
status "ok" around it. -/
theorem c8_probe_no_throw (tryInit : ChromaState → Except ChromaErr ChromaState)
    (s : ChromaState) :
    ((∃ e, tryInit s = .error e) → (is_readyWith tryInit s).1 = false) ∧
    ((is_readyWith tryInit s).1 = true →
      ∃ t, tryInit s = .ok t ∧ t.collHandle = true) ∧
    (health_check tryInit s).1 =
      { status := "ok", version := "0.1.0",
        chroma_ready := (is_readyWith tryInit s).1 } := by
  cases h : tryInit s with
  | error e =>
    refine ⟨fun _ => ?_, fun hr => ?_, ?_⟩ <;>
      simp_all [is_readyWith, health_check, h]
  | ok t =>
    refine ⟨fun ⟨e, he⟩ => ?_, fun hr => ⟨t, rfl, ?_⟩, ?_⟩ <;>
      simp_all [is_readyWith, health_check, h]

/-- Witness for C8 at a concrete always-faulting initializer. -/
theorem c8_probe_no_throw_witness :
    (is_readyWith failInit freshState).1 = false :=
  (c8_probe_no_throw failInit freshState).1 ⟨.assertionFailed, rfl⟩

/-- C5: with a live collection handle, searching an empty collection
answers the empty result list without error — for every query string and
every requested limit — and the route echoes the query back; on a non-empty
collection the requested limit is clamped to the collection size before the
store is queried, so the budget passed to the engine never exceeds the
number of stored entries and the call still succeeds. -/
theorem c5_search_safety (knn : String → Nat → List Chunk → List (Chunk × ℚ))
    (q : String) (n : Nat) (s : ChromaState)
    (hready : (ensure_ready s).collHandle = true) :
    ((ensure_ready s).entries = [] →
      search knn q n s = (.ok [], ensure_ready s) ∧
      (search_documents knn q n s).1 = .ok { results := [], query := q }) ∧
    ((ensure_ready s).entries ≠ [] →
      min n (ensure_ready s).entries.length ≤ (ensure_ready s).entries.length ∧
      (search knn q n s).1 =
        .ok ((knn q (min n (ensure_ready s).entries.length)
          (ensure_ready s).entries).map (fun p => normalizeHit p.1 p.2))) := by
  constructor
  · intro hempty
    have hs : search knn q n s = (.ok [], ensure_ready s) := by
      unfold search
      simp [hready, hempty]
    exact ⟨hs, by simp [search_documents, hs]⟩
  · intro hne
    refine ⟨Nat.min_le_right _ _, ?_⟩
    unfold search
    have hlen : (ensure_ready s).entries.length ≠ 0 := by
      simpa [List.length_eq_zero] using hne
    simp [hready, hlen]

/-- Witness for C5: a fresh service initializes to an empty collection and
answers the empty result list with the query echoed. -/
theorem c5_search_safety_witness :
    search sampleKnn "any query" 7 freshState = (.ok [], ensure_ready freshState) ∧
    (search_documents sampleKnn "any query" 7 freshState).1 =
      .ok { results := [], query := "any query" } :=
  (c5_search_safety sampleKnn "any query" 7 freshState (by decide)).1 (by decide)

/-- C4: every hit returned by `search` is the normalization of a raw store
result `(entry, distance)`, its score is computed exactly as
`1 - distance / 2`, and whenever the cosine distance lies in [0, 2] the
score lies in [0, 1]. -/
theorem c4_score_normalization
    (knn : String → Nat → List Chunk → List (Chunk × ℚ))
    (q : String) (n : Nat) (s : ChromaState) (hits : List Hit)
    (t : ChromaState) (hok : search knn q n s = (.ok hits, t))
    (h : Hit) (hmem : h ∈ hits) :
    ∃ e dist,
      (e, dist) ∈ knn q (min n (ensure_ready s).entries.length)
        (ensure_ready s).entries ∧
      h = normalizeHit e dist ∧
      h.score = 1 - dist / 2 ∧
      (0 ≤ dist → dist ≤ 2 → 0 ≤ h.score ∧ h.score ≤ 1) := by
  unfold search at hok
  by_cases hh : (ensure_ready s).collHandle = true
  · rw [if_pos hh] at hok
    by_cases hz : (ensure_ready s).entries.length = 0
    · rw [if_pos hz] at hok
      cases hok
      simp_all
    · rw [if_neg hz] at hok
      have hhits : hits = (knn q (min n (ensure_ready s).entries.length)
          (ensure_ready s).entries).map (fun p => normalizeHit p.1 p.2) := by
        have := congrArg Prod.fst hok
        simp at this
        exact this.symm
      subst hhits
      obtain ⟨p, hp, hph⟩ := List.mem_map.1 hmem
      refine ⟨p.1, p.2, by simpa using hp, hph.symm, by rw [← hph]; rfl, ?_⟩
      intro h0 h2
      rw [← hph]
      constructor
      · simp only [normalizeHit]
        linarith
      · simp only [normalizeHit]
        linarith
  · rw [if_neg hh] at hok
    cases hok

/-- Witness for C4 at a one-entry collection and a concrete engine whose
distance is 1/2. -/
theorem c4_score_normalization_witness :
    ∃ e dist,
      (e, dist) ∈ sampleKnn "q" (min 3 (ensure_ready oneEntryState).entries.length)
        (ensure_ready oneEntryState).entries ∧
      normalizeHit sampleChunk ((1 : ℚ) / 2) = normalizeHit e dist ∧
      (normalizeHit sampleChunk ((1 : ℚ) / 2)).score = 1 - dist / 2 ∧
      (0 ≤ dist → dist ≤ 2 →
        0 ≤ (normalizeHit sampleChunk ((1 : ℚ) / 2)).score ∧
        (normalizeHit sampleChunk ((1 : ℚ) / 2)).score ≤ 1) :=
  c4_score_normalization sampleKnn "q" 3 oneEntryState
    [normalizeHit sampleChunk ((1 : ℚ) / 2)] oneEntryState rfl
    (normalizeHit sampleChunk ((1 : ℚ) / 2)) (List.mem_singleton_self _)

/-- C1 probed on the code: from a fresh service, `clear` itself succeeds on
the just-created empty collection (the route reports `cleared = true`), but
contrary to the claim no later adapter operation recreates the collection —
`count`, a non-empty `add_chunks` and `search` all fail with the assertion
fault, because `_ensure_ready` early-returns on the still-set client handle
while the collection handle stays `None`. -/
theorem c1_clear_then_ops_fail :
    (clear freshState).1 = .ok () ∧
    (clear_documents freshState).1 = .ok { cleared := true } ∧
    (count (clear freshState).2).1 = .error .assertionFailed ∧
    (add_chunks [sampleChunk] (clear freshState).2).1 = .error .assertionFailed ∧
    (search sampleKnn "style" 3 (clear freshState).2).1 =
      .error .assertionFailed :=
  ⟨rfl, rfl, rfl, rfl, rfl⟩

/-- In the post-clear configuration (client handle set, collection handle
dropped, backing collection deleted) every adapter operation leaves the
state exactly as it is: the batch guard, the assertion failures and the
delete-of-missing-collection fault all return before mutating anything. -/
theorem stepOp_fixed (knn : String → Nat → List Chunk → List (Chunk × ℚ))
    (op : AdapterOp) (s : ChromaState) (h1 : s.clientInit = true)
    (h2 : s.collHandle = false) (h3 : s.collExists = false) :
    stepOp knn op s = s := by
  have he : ensure_ready s = s := ensure_ready_of_init s h1
  cases op with
  | add cs =>
    cases cs with
    | nil => rfl
    | cons c cs' => simp [stepOp, add_chunks, he, h2]
  | searchQ q n => simp [stepOp, search, he, h2]
  | countC => simp [stepOp, count, he, h2]
  | clearC => simp [stepOp, clear, he, h3]
  | ready => simp [stepOp, is_ready, is_readyWith, he]

/-- The post-clear configuration is a fixed point of every operation
sequence. -/
theorem runOps_fixed (knn : String → Nat → List Chunk → List (Chunk × ℚ))
    (ops : List AdapterOp) (s : ChromaState) (h1 : s.clientInit = true)
    (h2 : s.collHandle = false) (h3 : s.collExists = false) :
    runOps knn ops s = s := by
  induction ops with
  | nil => rfl
  | cons op ops ih =>
    show runOps knn ops (stepOp knn op s) = s
    rw [stepOp_fixed knn op s h1 h2 h3, ih]

/-- C10: once `clear` has succeeded, `is_ready` answers `false` after every
further sequence of adapter operations in the same process: `clear` drops
only the collection handle while the client handle stays set, and
`_ensure_ready` re-initializes only when the client handle is unset, so no
later operation ever restores a collection handle. -/
theorem c10_clear_disables_probe
    (knn : String → Nat → List Chunk → List (Chunk × ℚ))
    (s u : ChromaState) (hclear : clear s = (.ok (), u))
    (ops : List AdapterOp) :
    (is_ready (runOps knn ops u)).1 = false := by
  have hu : u.clientInit = true ∧ u.collHandle = false ∧ u.collExists = false := by
    unfold clear at hclear
    by_cases hex : (ensure_ready s).collExists = true
    · rw [if_pos hex] at hclear
      have := congrArg Prod.snd hclear
      simp at this
      rw [← this]
      exact ⟨ensure_ready_clientInit s, rfl, rfl⟩
    · rw [if_neg hex] at hclear
      simp at hclear
  obtain ⟨h1, h2, h3⟩ := hu
  rw [runOps_fixed knn ops u h1 h2 h3]
  show (is_readyWith (fun t => .ok (ensure_ready t)) u).1 = false
  simp [is_readyWith, ensure_ready_of_init u h1, h2]

/-- Witness for C10: clear a fresh service, then run further operations;
the probe stays `false`. -/
theorem c10_clear_disables_probe_witness :
    (is_ready (runOps sampleKnn [.countC, .add [sampleChunk], .ready]
      (clear freshState).2)).1 = false :=
  c10_clear_disables_probe sampleKnn freshState (clear freshState).2 rfl
    [.countC, .add [sampleChunk], .ready]

/-- Boolean id lookup unpacked to an existential. -/
theorem any_id_iff (es : List Chunk) (i : String) :
    es.any (fun e => e.id == i) = true ↔ ∃ e ∈ es, e.id = i := by
  simp [List.any_eq_true]

/-- Upserting a record whose id is already stored replaces in place and
keeps the collection size. -/
theorem length_upsertOne_present (es : List Chunk) (c : Chunk)
    (h : es.any (fun e => e.id == c.id) = true) :
    (upsertOne es c).length = es.length := by
  simp [upsertOne, h]

/-- After a single upsert the upserted id is stored. -/
theorem mem_id_upsertOne (es : List Chunk) (c : Chunk) :
    ∃ e ∈ upsertOne es c, e.id = c.id := by
  unfold upsertOne
  by_cases h : es.any (fun e => e.id == c.id) = true
  · rw [if_pos h]
    obtain ⟨e, he, hid⟩ := (any_id_iff es c.id).1 h
    refine ⟨c, List.mem_map.2 ⟨e, he, ?_⟩, rfl⟩
    simp [hid]
  · rw [if_neg h]
    exact ⟨c, List.mem_append_right es (List.mem_singleton_self c), rfl⟩

/-- A single upsert never removes a stored id. -/
theorem mem_id_upsertOne_mono (es : List Chunk) (c : Chunk) (i : String)
    (h : ∃ e ∈ es, e.id = i) : ∃ e ∈ upsertOne es c, e.id = i := by
  obtain ⟨e, he, hid⟩ := h
  unfold upsertOne
  by_cases hp : es.any (fun e => e.id == c.id) = true
  · rw [if_pos hp]
    by_cases hec : e.id = c.id
    · refine ⟨c, List.mem_map.2 ⟨e, he, ?_⟩, by rw [← hec, hid]⟩
      simp [hec]
    · refine ⟨e, List.mem_map.2 ⟨e, he, ?_⟩, hid⟩
      simp [hec]
  · rw [if_neg hp]
    exact ⟨e, List.mem_append_left _ he, hid⟩

/-- A batch upsert never removes a stored id. -/
theorem mem_id_upsertMany_mono (cs : List Chunk) (es : List Chunk) (i : String)
    (h : ∃ e ∈ es, e.id = i) : ∃ e ∈ upsertMany es cs, e.id = i := by
  induction cs generalizing es with
  | nil => exact h
  | cons c0 cs ih =>
    show ∃ e ∈ upsertMany (upsertOne es c0) cs, e.id = i
    exact ih (upsertOne es c0) (mem_id_upsertOne_mono es c0 i h)

/-- After a batch upsert, every id of the batch is stored. -/
theorem mem_id_upsertMany (cs : List Chunk) (es : List Chunk) (c : Chunk)
    (hc : c ∈ cs) : ∃ e ∈ upsertMany es cs, e.id = c.id := by
  induction cs generalizing es with
  | nil => cases hc
  | cons c0 cs ih =>
    rcases List.mem_cons.1 hc with hc0 | hcs
    · subst hc0
      exact mem_id_upsertMany_mono cs (upsertOne es c) c.id (mem_id_upsertOne es c)
    · exact ih (upsertOne es c0) hcs

/-- A batch whose ids are all already stored does not change the collection
size. -/
theorem length_upsertMany_present (cs : List Chunk) (es : List Chunk)
    (h : ∀ c ∈ cs, ∃ e ∈ es, e.id = c.id) :
    (upsertMany es cs).length = es.length := by
  induction cs generalizing es with
  | nil => rfl
  | cons c0 cs ih =>
    have h0 : es.any (fun e => e.id == c0.id) = true :=
      (any_id_iff es c0.id).2 (h c0 (List.mem_cons_self c0 cs))
    have hstep : (upsertOne es c0).length = es.length :=
      length_upsertOne_present es c0 h0
    have hrest : ∀ c ∈ cs, ∃ e ∈ upsertOne es c0, e.id = c.id :=
      fun c hc => mem_id_upsertOne_mono es c0 c.id (h c (List.mem_cons_of_mem c0 hc))
    calc (upsertMany (upsertOne es c0) cs).length
        = (upsertOne es c0).length := ih (upsertOne es c0) hrest
      _ = es.length := hstep

/-- C3: from any state with a live collection handle, indexing the same
prepared batch twice succeeds both times and the second upsert leaves the
stored chunk count unchanged — the second run reproduces the same ids, so
every write replaces an entry written by the first run. -/
theorem c3_idempotent_reindex (split_text : String → List String)
    (docs : List DocumentChunk) (s : ChromaState)
    (hready : (ensure_ready s).collHandle = true) :
    ∃ s₁ s₂,
      add_chunks (prepare_chunks split_text docs) s = (.ok (), s₁) ∧
      add_chunks (prepare_chunks split_text docs) s₁ = (.ok (), s₂) ∧
      (count s₂).1 = (count s₁).1 ∧
      s₂.entries.length = s₁.entries.length := by
  set cs := prepare_chunks split_text docs with hcs
  by_cases hne : cs.isEmpty = true
  · refine ⟨s, s, ?_, ?_, rfl, rfl⟩ <;> simp [add_chunks, hne]
  · set t := ensure_ready s with ht
    set s₁ : ChromaState := { t with entries := upsertMany t.entries cs } with hs₁
    have h1 : add_chunks cs s = (.ok (), s₁) := by
      unfold add_chunks
      rw [if_neg hne, ← ht, if_pos hready]
    have hinit₁ : s₁.clientInit = true := ensure_ready_clientInit s
    have her₁ : ensure_ready s₁ = s₁ := ensure_ready_of_init s₁ hinit₁
    have hh₁ : s₁.collHandle = true := hready
    set s₂ : ChromaState := { s₁ with entries := upsertMany s₁.entries cs } with hs₂
    have h2 : add_chunks cs s₁ = (.ok (), s₂) := by
      unfold add_chunks
      rw [if_neg hne, her₁, if_pos hh₁]
    have hlen : s₂.entries.length = s₁.entries.length := by
      show (upsertMany s₁.entries cs).length = s₁.entries.length
      refine length_upsertMany_present cs s₁.entries ?_
      intro c hc
      exact mem_id_upsertMany cs t.entries c hc
    have hinit₂ : s₂.clientInit = true := hinit₁
    have hcount : (count s₂).1 = (count s₁).1 := by
      unfold count
      rw [her₁, ensure_ready_of_init s₂ hinit₂]
      have hh₂ : s₂.collHandle = true := hh₁
      rw [if_pos hh₁, if_pos hh₂, hlen]
    exact ⟨s₁, s₂, h1, h2, hcount, hlen⟩

/-- Witness for C3 at a concrete one-section batch on a fresh service. -/
theorem c3_idempotent_reindex_witness :
    ∃ s₁ s₂,
      add_chunks (prepare_chunks oneSplit [sampleDoc]) freshState = (.ok (), s₁) ∧
      add_chunks (prepare_chunks oneSplit [sampleDoc]) s₁ = (.ok (), s₂) ∧
      (count s₂).1 = (count s₁).1 ∧
      s₂.entries.length = s₁.entries.length :=
  c3_idempotent_reindex oneSplit [sampleDoc] freshState rfl

/-- Unfolding of `prepare_chunks` on a cons cell. -/
theorem prepare_chunks_cons (split_text : String → List String)
    (d : DocumentChunk) (ds : List DocumentChunk) :
    prepare_chunks split_text (d :: ds) =
      if pyStrip d.content = "" then prepare_chunks split_text ds
      else ((enumerate 0 (split_text (pyStrip d.content))).map
        (fun p => assembleChunk d p.1 p.2)) ++ prepare_chunks split_text ds := rfl

/-- Every chunk produced by `prepare_chunks` is the assembly of one
enumerated sub-chunk of one input section. -/
theorem mem_prepare_chunks (split_text : String → List String)
    (docs : List DocumentChunk) (c : Chunk)
    (hc : c ∈ prepare_chunks split_text docs) :
    ∃ d ∈ docs, ∃ p ∈ enumerate 0 (split_text (pyStrip d.content)),
      c = assembleChunk d p.1 p.2 := by
  induction docs with
  | nil => cases hc
  | cons d ds ih =>
    rw [prepare_chunks_cons] at hc
    by_cases hb : pyStrip d.content = ""
    · rw [if_pos hb] at hc
      obtain ⟨d', hd', rest⟩ := ih hc
      exact ⟨d', List.mem_cons_of_mem d hd', rest⟩
    · rw [if_neg hb] at hc
      rcases List.mem_append.1 hc with hleft | hright
      · obtain ⟨p, hp, hpc⟩ := List.mem_map.1 hleft
        exact ⟨d, List.mem_cons_self d ds, p, hp, hpc.symm⟩
      · obtain ⟨d', hd', rest⟩ := ih hright
        exact ⟨d', List.mem_cons_of_mem d hd', rest⟩

/-- C9: every record assembled by `prepare_chunks` carries plain string
values in all metadata fields, produced by the documented defaulting: the
id is the deterministic hash of doc id, effective section id and position;
a missing or blank heading becomes the empty string; a missing speaker
becomes "unknown"; a missing or blank section id becomes the doc id; and
the tag list is flattened to one comma-joined string. -/
theorem c9_assembled_metadata (split_text : String → List String)
    (docs : List DocumentChunk) (c : Chunk)
    (hc : c ∈ prepare_chunks split_text docs) :
    ∃ d ∈ docs, ∃ idx text,
      (idx, text) ∈ enumerate 0 (split_text (pyStrip d.content)) ∧
      c.id = _chunk_id d.doc_id (pyOrStr d.section_id d.doc_id) idx ∧
      c.content = text ∧
      c.doc_id = d.doc_id ∧
      c.filename = d.filename ∧
      c.section_id = pyOrStr d.section_id d.doc_id ∧
      c.heading = pyOrStr d.heading "" ∧
      c.speaker = d.speaker.getD "unknown" ∧
      c.tags = joinTags d.tags := by
  obtain ⟨d, hd, p, hp, hcp⟩ := mem_prepare_chunks split_text docs c hc
  subst hcp
  exact ⟨d, hd, p.1, p.2, hp, rfl, rfl, rfl, rfl, rfl, rfl, rfl, rfl⟩

/-- Witness for C9 at a concrete section with missing optional fields. -/
theorem c9_assembled_metadata_witness :
    ∃ d ∈ [untaggedDoc], ∃ idx text,
      (idx, text) ∈ enumerate 0 (oneSplit (pyStrip d.content)) ∧
      (assembleChunk untaggedDoc 0 "words").id =
        _chunk_id d.doc_id (pyOrStr d.section_id d.doc_id) idx ∧
      (assembleChunk untaggedDoc 0 "words").content = text ∧
      (assembleChunk untaggedDoc 0 "words").doc_id = d.doc_id ∧
      (assembleChunk untaggedDoc 0 "words").filename = d.filename ∧
      (assembleChunk untaggedDoc 0 "words").section_id =
        pyOrStr d.section_id d.doc_id ∧
      (assembleChunk untaggedDoc 0 "words").heading = pyOrStr d.heading "" ∧
      (assembleChunk untaggedDoc 0 "words").speaker = d.speaker.getD "unknown" ∧
      (assembleChunk untaggedDoc 0 "words").tags = joinTags d.tags :=
  c9_assembled_metadata oneSplit [untaggedDoc] (assembleChunk untaggedDoc 0 "words")
    (by simp [prepare_chunks_cons, prepare_chunks, pyStrip, untaggedDoc, enumerate, oneSplit])

/-- C6: the tag round-trip through storage: a section tagged
["alpha","beta","gamma"] is stored with the comma-joined string
"alpha,beta,gamma", and the route's split-and-drop-empties recovers the
original list; a section with no tags is stored with the empty string,
which deserializes to the empty list rather than to [""]. -/
theorem c6_tag_round_trip (split_text : String → List String)
    (d : DocumentChunk) (c : Chunk) :
    (d.tags = ["alpha", "beta", "gamma"] → c ∈ prepare_chunks split_text [d] →
      c.tags = "alpha,beta,gamma" ∧ splitTags c.tags = ["alpha", "beta", "gamma"]) ∧
    (d.tags = [] → c ∈ prepare_chunks split_text [d] →
      c.tags = "" ∧ splitTags c.tags = []) := by
  constructor
  · intro ht hc
    obtain ⟨d', hd', p, hp, hcp⟩ := mem_prepare_chunks split_text [d] c hc
    have hdd : d' = d := by simpa using hd'
    subst hdd hcp
    have htags : (assembleChunk d' p.1 p.2).tags = "alpha,beta,gamma" := by
      show joinTags d'.tags = "alpha,beta,gamma"
      rw [ht]
      decide
    rw [htags]
    exact ⟨rfl, by decide⟩
  · intro ht hc
    obtain ⟨d', hd', p, hp, hcp⟩ := mem_prepare_chunks split_text [d] c hc
    have hdd : d' = d := by simpa using hd'
    subst hdd hcp
    have htags : (assembleChunk d' p.1 p.2).tags = "" := by
      show joinTags d'.tags = ""
      rw [ht]
      rfl
    rw [htags]
    exact ⟨rfl, by decide⟩

/-- Witness for C6 at concrete tagged and untagged sections. -/
theorem c6_tag_round_trip_witness :
    (assembleChunk taggedDoc 0 "enough text").tags = "alpha,beta,gamma" ∧
    splitTags (assembleChunk taggedDoc 0 "enough text").tags =
      ["alpha", "beta", "gamma"] :=
  (c6_tag_round_trip oneSplit taggedDoc (assembleChunk taggedDoc 0 "enough text")).1
    rfl
    (by simp [prepare_chunks_cons, prepare_chunks, pyStrip, taggedDoc, enumerate, oneSplit])

/-- The digit list is independent of the fuel once the fuel exceeds the
number. -/
theorem pyStrAux_eq_of_lt (n : Nat) :
    ∀ f₁ f₂, n < f₁ → n < f₂ → pyStrAux f₁ n = pyStrAux f₂ n := by
  induction n using Nat.strong_induction_on with
  | _ n ih =>
    intro f₁ f₂ h₁ h₂
    match f₁, h₁ with
    | g₁ + 1, h₁ =>
      match f₂, h₂ with
      | g₂ + 1, h₂ =>
        by_cases hn : n < 10
        · simp [pyStrAux, hn]
        · have hpos : 0 < n := by omega
          have hdiv : n / 10 < n := Nat.div_lt_self hpos (by omega)
          have hg₁ : n / 10 < g₁ := lt_of_lt_of_le hdiv (Nat.lt_succ_iff.1 h₁)
          have hg₂ : n / 10 < g₂ := lt_of_lt_of_le hdiv (Nat.lt_succ_iff.1 h₂)
          simp only [pyStrAux, if_neg hn]
          rw [ih (n / 10) hdiv g₁ g₂ hg₁ hg₂]

/-- One-step unfolding of the decimal rendering with canonical fuel. -/
theorem pyStrAux_unfold (n : Nat) :
    pyStrAux (n + 1) n =
      if n < 10 then [digitChar n]
      else pyStrAux (n / 10 + 1) (n / 10) ++ [digitChar (n % 10)] := by
  rw [show pyStrAux (n + 1) n =
      if n < 10 then [digitChar n]
      else pyStrAux n (n / 10) ++ [digitChar (n % 10)] from rfl]
  by_cases hn : n < 10
  · rw [if_pos hn, if_pos hn]
  · have hpos : 0 < n := by omega
    have hdiv : n / 10 < n := Nat.div_lt_self hpos (by omega)
    rw [if_neg hn, if_neg hn,
      pyStrAux_eq_of_lt (n / 10) n (n / 10 + 1) hdiv (Nat.lt_succ_self _)]

/-- A decimal rendering is never empty. -/
theorem pyStrAux_ne_nil (n : Nat) : pyStrAux (n + 1) n ≠ [] := by
  rw [pyStrAux_unfold]
  split <;> simp

/-- Every character of a decimal rendering is a digit character. -/
theorem pyStrAux_digits (n : Nat) :
    ∀ c ∈ pyStrAux (n + 1) n, ∃ d, d < 10 ∧ c = digitChar d := by
  induction n using Nat.strong_induction_on with
  | _ n ih =>
    intro c hc
    rw [pyStrAux_unfold] at hc
    by_cases hn : n < 10
    · rw [if_pos hn] at hc
      simp at hc
      exact ⟨n, hn, hc⟩
    · rw [if_neg hn] at hc
      rcases List.mem_append.1 hc with hl | hr
      · have hpos : 0 < n := by omega
        exact ih (n / 10) (Nat.div_lt_self hpos (by omega)) c hl
      · simp at hr
        exact ⟨n % 10, Nat.mod_lt n (by omega), hr⟩

/-- The ten digit characters are pairwise distinct. -/
theorem digitChar_inj_fin : ∀ a b : Fin 10, digitChar a = digitChar b → a = b := by
  decide

/-- No digit character is the colon. -/
theorem digitChar_ne_colon : ∀ a : Fin 10, digitChar a ≠ ':' := by
  decide

/-- The colon never occurs in a decimal rendering. -/
theorem colon_not_mem_pyStr (n : Nat) : ':' ∉ (pyStr n).data := by
  intro h
  obtain ⟨d, hd, hcd⟩ := pyStrAux_digits n ':' h
  exact digitChar_ne_colon ⟨d, hd⟩ hcd.symm

/-- The decimal rendering is injective. -/
theorem pyStrAux_inj (n : Nat) :
    ∀ m, pyStrAux (n + 1) n = pyStrAux (m + 1) m → n = m := by
  induction n using Nat.strong_induction_on with
  | _ n ih =>
    intro m h
    rw [pyStrAux_unfold n, pyStrAux_unfold m] at h
    by_cases hn : n < 10 <;> by_cases hm : m < 10
    · rw [if_pos hn, if_pos hm] at h
      simp only [List.cons.injEq, and_true] at h
      have := digitChar_inj_fin ⟨n, hn⟩ ⟨m, hm⟩ h
      simpa [Fin.ext_iff] using this
    · rw [if_pos hn, if_neg hm] at h
      have hlen := congrArg List.length h
      simp at hlen
      exact absurd hlen (pyStrAux_ne_nil (m / 10))
    · rw [if_neg hn, if_pos hm] at h
      have hlen := congrArg List.length h
      simp at hlen
      exact absurd hlen (pyStrAux_ne_nil (n / 10))
    · rw [if_neg hn, if_neg hm] at h
      obtain ⟨ha, hx⟩ := List.append_inj' h rfl
      simp only [List.cons.injEq, and_true] at hx
      have hmod : n % 10 = m % 10 := by
        have := digitChar_inj_fin ⟨n % 10, Nat.mod_lt n (by omega)⟩
          ⟨m % 10, Nat.mod_lt m (by omega)⟩ hx
        simpa [Fin.ext_iff] using this
      have hpos : 0 < n := by omega
      have hdivlt : n / 10 < n := Nat.div_lt_self hpos (by omega)
      have hdiv : n / 10 = m / 10 := ih (n / 10) hdivlt (m / 10) ha
      omega

/-- Splitting at the first "::" marker is unambiguous when the prefix is
colon-free. -/
theorem append_colon2_inj (a₁ b₁ : List Char) :
    ∀ a₂ b₂ : List Char, ':' ∉ a₁ → ':' ∉ a₂ →
      a₁ ++ ':' :: ':' :: b₁ = a₂ ++ ':' :: ':' :: b₂ → a₁ = a₂ ∧ b₁ = b₂ := by
  induction a₁ with
  | nil =>
    intro a₂ b₂ _ h₂ heq
    cases a₂ with
    | nil =>
      simp at heq
      exact ⟨rfl, heq⟩
    | cons y ys =>
      simp at heq
      exact absurd (List.mem_cons_self y ys) (heq.1 ▸ h₂)
  | cons x xs ih =>
    intro a₂ b₂ h₁ h₂ heq
    cases a₂ with
    | nil =>
      simp at heq
      exact absurd (List.mem_cons_self x xs) (heq.1 ▸ h₁)
    | cons y ys =>
      simp only [List.cons_append, List.cons.injEq] at heq
      obtain ⟨hxy, htail⟩ := heq
      have h₁' : ':' ∉ xs := fun hmem => h₁ (List.mem_cons_of_mem x hmem)
      have h₂' : ':' ∉ ys := fun hmem => h₂ (List.mem_cons_of_mem y hmem)
      obtain ⟨hxs, hb⟩ := ih ys b₂ h₁' h₂' htail
      exact ⟨by rw [hxy, hxs], hb⟩

/-- Character-level decomposition of the `_chunk_id` key string. -/
theorem chunkIdRaw_data (d s : String) (i : Nat) :
    (chunkIdRaw d s i).data =
      d.data ++ ':' :: ':' :: (s.data ++ ':' :: ':' :: (pyStr i).data) := by
  have h2 : ("::" : String).data = [':', ':'] := rfl
  simp [chunkIdRaw, String.data_append, h2]

/-- C2 counterexample: two triples that differ in both doc id and section
id produce the same key string "a::b::c::0" — the delimiter can be embedded
in the components — and therefore the same MD5 chunk ID, refuting the
unrestricted claim that IDs differ whenever any input differs. -/
theorem c2_id_collision :
    _chunk_id "a::b" "c" 0 = _chunk_id "a" "b::c" 0 ∧
    ("a::b", "c", (0 : Nat)) ≠ ("a", "b::c", (0 : Nat)) := by
  constructor
  · have hraw : chunkIdRaw "a::b" "c" 0 = chunkIdRaw "a" "b::c" 0 := by decide
    unfold _chunk_id
    rw [hraw]
  · decide

/-- C2 amended: `_chunk_id` is a pure function of the triple alone, hence
deterministic across repeated computations and independent of the chunk
text; and for triples whose doc id and section id contain no colon, any
difference in the triple changes the MD5 pre-image key string (so the IDs
themselves differ whenever MD5 does not collide on the two keys); the
repository's own sample ids at indices 0 and 1 are indeed distinct. -/
theorem c2_deterministic_ids :
    (∀ d s i, _chunk_id d s i = _chunk_id d s i) ∧
    (∀ d₁ s₁ i₁ d₂ s₂ i₂ : _,
      ':' ∉ String.data d₁ → ':' ∉ String.data s₁ →
      ':' ∉ String.data d₂ → ':' ∉ String.data s₂ →
      chunkIdRaw d₁ s₁ i₁ = chunkIdRaw d₂ s₂ i₂ →
      d₁ = d₂ ∧ s₁ = s₂ ∧ i₁ = i₂) ∧
    _chunk_id "doc_001" "sec_001" 0 ≠ _chunk_id "doc_001" "sec_001" 1 := by
  refine ⟨fun d s i => rfl, ?_, by decide⟩
  intro d₁ s₁ i₁ d₂ s₂ i₂ hd₁ hs₁ hd₂ hs₂ heq
  have hdata := congrArg String.data heq
  rw [chunkIdRaw_data, chunkIdRaw_data] at hdata
  obtain ⟨hdoc, hrest⟩ := append_colon2_inj d₁.data _ d₂.data _ hd₁ hd₂ hdata
  obtain ⟨hsec, hidx⟩ := append_colon2_inj s₁.data _ s₂.data _ hs₁ hs₂ hrest
  refine ⟨String.ext hdoc, String.ext hsec, ?_⟩
  exact pyStrAux_inj i₁ i₂ hidx

/-- Witness for the amended C2 at concrete colon-free inputs. -/
theorem c2_deterministic_ids_witness :
    "doc_9" = "doc_9" ∧ "sec_9" = "sec_9" ∧ (4 : Nat) = 4 :=
  c2_deterministic_ids.2.1 "doc_9" "sec_9" 4 "doc_9" "sec_9" 4
    (by decide) (by decide) (by decide) (by decide) rfl
